import Mathlib

/-!
Shallow embedding of the pinata library (the `Stick`/`Pinata` design in
`pinata.go`): a navigator over decoded JSON-like trees with a single
pending-error slot, short-circuiting once an error is set.

Go values decoded from JSON are one of: nil, string, float64, bool,
`map[string]interface{}`, `[]interface{}`.  `float64` payloads are carried
opaquely here (the library only type-asserts and returns them, never
computes with them), so an integer carrier with zero value `0` is faithful
to every observable behaviour of the code.
-/

inductive GoValue : Type where
  | vnil : GoValue
  | vstring (s : String) : GoValue
  | vfloat64 (x : Int) : GoValue
  | vbool (b : Bool) : GoValue
  | vmap (m : List (String × GoValue)) : GoValue
  | vslice (l : List GoValue) : GoValue

/-- Arguments recorded in an error context (`[]interface{}` in Go): the
library only ever stores ints (indices) and strings (path segments). -/
inductive Arg : Type where
  | ofInt (i : Int) : Arg
  | ofString (s : String) : Arg
deriving DecidableEq

/-- Go `map[string]interface{}` lookup, on an association-list model. -/
def mapLookup : List (String × GoValue) → String → Option GoValue
  | [], _ => none
  | (k, v) :: rest, key => if k = key then some v else mapLookup rest key

/-- `ErrorReason` (a string type with three constants in Go). -/
inductive ErrorReason : Type where
  | incompatibleType : ErrorReason
  | notFound : ErrorReason
  | invalidInput : ErrorReason
deriving DecidableEq

/-- The Go string constant backing each `ErrorReason`. -/
def ErrorReason.goString : ErrorReason → String
  | .incompatibleType => "incompatible type"
  | .notFound => "not found"
  | .invalidInput => "invalid input"

/-- `ErrorContext`: method name, arguments, and an optional link to the
context of the enclosing call (`next`).  Recursive, hence an inductive. -/
inductive ErrorContext : Type where
  | mk (methodName : String) (methodArgs : List Arg)
      (next : Option ErrorContext) : ErrorContext

def ErrorContext.methodName : ErrorContext → String
  | .mk n _ _ => n

def ErrorContext.methodArgs : ErrorContext → List Arg
  | .mk _ a _ => a

def ErrorContext.next : ErrorContext → Option ErrorContext
  | .mk _ _ n => n

/-- `Error`: reason, optional context chain, human-readable advice. -/
structure Error : Type where
  reason : ErrorReason
  context : Option ErrorContext
  advice : String

/-- `Pinata` struct: context, raw value, and the two capability closures.
A capability field is `none` when the Go function pointer is nil (the
zero `Pinata{}`), and `some r` when it is a closure returning `r`. -/
structure Pinata : Type where
  context : Option ErrorContext := none
  value : GoValue := .vnil
  mapFunc : Option (List (String × GoValue) × Bool) := none
  sliceFunc : Option (List GoValue × Bool) := none

def noMap : List (String × GoValue) × Bool := ([], false)

def noSlice : List GoValue × Bool := ([], false)

/-- `Pinata.Value`: the raw value. -/
def Pinata.Value (p : Pinata) : GoValue := p.value

/-- `Pinata.Map`: call `mapFunc` when non-nil, else `noMap()`. -/
def Pinata.Map (p : Pinata) : List (String × GoValue) × Bool :=
  match p.mapFunc with
  | some r => r
  | none => noMap

/-- `Pinata.Slice`: call `sliceFunc` when non-nil, else `noSlice()`. -/
def Pinata.Slice (p : Pinata) : List GoValue × Bool :=
  match p.sliceFunc with
  | some r => r
  | none => noSlice

/-- `newPinataWithContext`: three-way type switch on the contents. -/
def newPinataWithContext (contents : GoValue) (context : Option ErrorContext) :
    Pinata :=
  match contents with
  | .vmap t =>
      { value := .vmap t, sliceFunc := some noSlice, mapFunc := some (t, true),
        context := context }
  | .vslice t =>
      { value := .vslice t, sliceFunc := some (t, true), mapFunc := some noMap,
        context := context }
  | t =>
      { value := t, sliceFunc := some noSlice, mapFunc := some noMap,
        context := context }

/-- `NewPinata`. -/
def NewPinata (contents : GoValue) : Pinata := newPinataWithContext contents none

/-- The `stick` struct: the single pending-error slot. -/
structure StickState : Type where
  err : Option Error

/-- `NewStick`. -/
def NewStick : StickState := ⟨none⟩

/-- `toInterfaceSlice`: path segments as recorded arguments. -/
def toInterfaceSlice (c : List String) : List Arg := c.map Arg.ofString

/-- `stickClearError`: returns the pending error and resets it to nil. -/
def stickClearError (s : StickState) : Option Error × StickState :=
  (s.err, ⟨none⟩)

/-- `stickUnsupported`: unconditionally overwrite the error slot with an
incompatible-type error for `methodName`. -/
def stickUnsupported (errCtx : Option ErrorContext) (methodName : String)
    (input : List Arg) (advice : String) : StickState :=
  ⟨some { reason := .incompatibleType,
          context := some (.mk methodName input errCtx),
          advice := advice }⟩

/-- `stickIndexUnsupported`. -/
def stickIndexUnsupported (errCtx : Option ErrorContext) (methodName : String)
    (index : Int) : StickState :=
  ⟨some { reason := .incompatibleType,
          context := some (.mk methodName [.ofInt index] errCtx),
          advice := "call this method on a slice pinata" }⟩

/-- `stickPathUnsupported`. -/
def stickPathUnsupported (errCtx : Option ErrorContext) (methodName : String)
    (path : List String) : StickState :=
  ⟨some { reason := .incompatibleType,
          context := some (.mk methodName (toInterfaceSlice path) errCtx),
          advice := "call this method on a map pinata" }⟩

/-- `stickInternalString`. -/
def stickInternalString (s : StickState) (p : Pinata) (methodName : String)
    (input : List Arg) : String × StickState :=
  if (p.Map).2 then
    ("", stickUnsupported p.context methodName input "this is a map")
  else if (p.Slice).2 then
    ("", stickUnsupported p.context methodName input "this is a slice")
  else
    match p.Value with
    | .vstring v => (v, s)
    | _ => ("", stickUnsupported p.context methodName input "this is not a string")

/-- `stickInternalFloat64`. -/
def stickInternalFloat64 (s : StickState) (p : Pinata) (methodName : String)
    (input : List Arg) : Int × StickState :=
  if (p.Map).2 then
    (0, stickUnsupported p.context methodName input "this is a map")
  else if (p.Slice).2 then
    (0, stickUnsupported p.context methodName input "this is a slice")
  else
    match p.Value with
    | .vfloat64 v => (v, s)
    | _ => (0, stickUnsupported p.context methodName input "this is not a float64")

/-- `stickInternalBool`. -/
def stickInternalBool (s : StickState) (p : Pinata) (methodName : String)
    (input : List Arg) : Bool × StickState :=
  if (p.Map).2 then
    (false, stickUnsupported p.context methodName input "this is a map")
  else if (p.Slice).2 then
    (false, stickUnsupported p.context methodName input "this is a slice")
  else
    match p.Value with
    | .vbool v => (v, s)
    | _ => (false, stickUnsupported p.context methodName input "this is not a bool")

/-- `stickInternalNil`.  NOTE: translated faithfully from the Go code,
whose map/slice branches lack a `return`, so every non-nil value falls
through to the final unconditional write of "this is not nil"; the two
intermediate writes are dead. -/
def stickInternalNil (s : StickState) (p : Pinata) (methodName : String)
    (input : List Arg) : StickState :=
  match p.Value with
  | .vnil => s
  | _ =>
    let _afterMap :=
      if (p.Map).2 then
        stickUnsupported p.context methodName input "this is a map"
      else s
    let _afterSlice :=
      if (p.Slice).2 then
        stickUnsupported p.context methodName input "this is a slice"
      else _afterMap
    stickUnsupported p.context methodName input "this is not nil"

/-- `stickString`. -/
def stickString (s : StickState) (p : Pinata) : String × StickState :=
  match s.err with
  | some _ => ("", s)
  | none => stickInternalString s p "String" []

/-- `stickBool`. -/
def stickBool (s : StickState) (p : Pinata) : Bool × StickState :=
  match s.err with
  | some _ => (false, s)
  | none => stickInternalBool s p "Bool" []

/-- `stickFloat64`. -/
def stickFloat64 (s : StickState) (p : Pinata) : Int × StickState :=
  match s.err with
  | some _ => (0, s)
  | none => stickInternalFloat64 s p "Float64" []

/-- `stickNil`. -/
def stickNil (s : StickState) (p : Pinata) : StickState :=
  match s.err with
  | some _ => s
  | none => stickInternalNil s p "Nil" []

/-- `stickInternalIndex`: bounds-checked element access on a slice pinata. -/
def stickInternalIndex (s : StickState) (p : Pinata) (methodName : String)
    (index : Int) : Pinata × StickState :=
  match p.Slice with
  | (slice, true) =>
    if index < 0 ∨ (slice.length : Int) ≤ index then
      ({}, ⟨some { reason := .invalidInput,
                   context := some (.mk methodName [.ofInt index] p.context),
                   advice := "specify an index from 0 to " ++
                     toString ((slice.length : Int) - 1) }⟩)
    else
      (newPinataWithContext (slice.getD index.toNat .vnil)
        (some (.mk methodName [.ofInt index] p.context)), s)
  | (_, false) => ({}, stickIndexUnsupported p.context methodName index)

/-- `stickIndex`. -/
def stickIndex (s : StickState) (p : Pinata) (index : Int) : Pinata × StickState :=
  match s.err with
  | some _ => ({}, s)
  | none => stickInternalIndex s p "Index" index

/-- `stickIndexString`: index step then string extraction, error context
rewritten to the composite method name and index argument. -/
def stickIndexString (s : StickState) (p : Pinata) (index : Int) :
    String × StickState :=
  match s.err with
  | some _ => ("", s)
  | none =>
    let (pinata, s1) := stickInternalIndex s p "IndexString" index
    match s1.err with
    | some _ => ("", s1)
    | none =>
      stickInternalString s1 { pinata with context := p.context } "IndexString"
        [.ofInt index]

/-- `stickIndexFloat64`. -/
def stickIndexFloat64 (s : StickState) (p : Pinata) (index : Int) :
    Int × StickState :=
  match s.err with
  | some _ => (0, s)
  | none =>
    let (pinata, s1) := stickInternalIndex s p "IndexFloat64" index
    match s1.err with
    | some _ => (0, s1)
    | none =>
      stickInternalFloat64 s1 { pinata with context := p.context } "IndexFloat64"
        [.ofInt index]

/-- `stickIndexBool`. -/
def stickIndexBool (s : StickState) (p : Pinata) (index : Int) :
    Bool × StickState :=
  match s.err with
  | some _ => (false, s)
  | none =>
    let (pinata, s1) := stickInternalIndex s p "IndexBool" index
    match s1.err with
    | some _ => (false, s1)
    | none =>
      stickInternalBool s1 { pinata with context := p.context } "IndexBool"
        [.ofInt index]

/-- `stickIndexNil`. -/
def stickIndexNil (s : StickState) (p : Pinata) (index : Int) : StickState :=
  match s.err with
  | some _ => s
  | none =>
    let (pinata, s1) := stickInternalIndex s p "IndexNil" index
    match s1.err with
    | some _ => s1
    | none =>
      stickInternalNil s1 { pinata with context := p.context } "IndexNil"
        [.ofInt index]

/-- Rendering of `strings.Join(xs, mid)` wrapped in the outer quotes the
path advice messages use. -/
def quoteJoin (xs : List String) : String :=
  "\"" ++ String.intercalate "\", \"" xs ++ "\""

/-- The intermediate-segment loop of `stickInternalPath` (`for i := 0;
i < len(path)-1; i++`): walks the given intermediate segments through
nested maps, returning the final map or the first error.  `i` is the
number of segments already consumed, so the advice prefix for a failure
at the current segment is `path.take (i+1)`. -/
def stickPathWalk (methodName : String) (path : List String)
    (pCtx : Option ErrorContext) :
    List (String × GoValue) → List String → Nat →
      (List (String × GoValue)) ⊕ Error
  | contents, [], _ => Sum.inl contents
  | contents, current :: rest, i =>
    match mapLookup contents current with
    | some (.vmap m) => stickPathWalk methodName path pCtx m rest (i + 1)
    | some _ =>
        Sum.inr { reason := .incompatibleType,
                  context := some (.mk methodName (toInterfaceSlice path) pCtx),
                  advice := quoteJoin (path.take (i + 1)) ++
                    " does not hold a pinata" }
    | none =>
        Sum.inr { reason := .notFound,
                  context := some (.mk methodName (toInterfaceSlice path) pCtx),
                  advice := quoteJoin (path.take (i + 1)) ++ " does not exist" }

/-- `stickInternalPath`. -/
def stickInternalPath (s : StickState) (p : Pinata) (methodName : String)
    (path : List String) : Pinata × StickState :=
  match p.Map with
  | (_, false) => ({}, stickPathUnsupported p.context methodName path)
  | (contents, true) =>
    match path with
    | [] =>
      ({}, ⟨some { reason := .invalidInput,
                   context := some (.mk methodName (toInterfaceSlice path) p.context),
                   advice := "specify a path" }⟩)
    | _ =>
      match stickPathWalk methodName path p.context contents
          (path.take (path.length - 1)) 0 with
      | .inr e => ({}, ⟨some e⟩)
      | .inl finalContents =>
        match mapLookup finalContents (path.getD (path.length - 1) "") with
        | some v =>
            (newPinataWithContext v
              (some (.mk methodName (toInterfaceSlice path) p.context)), s)
        | none =>
            ({}, ⟨some { reason := .notFound,
                         context := some (.mk methodName (toInterfaceSlice path) p.context),
                         advice := quoteJoin path ++ " does not exist" }⟩)

/-- `stickPath`. -/
def stickPath (s : StickState) (p : Pinata) (path : List String) :
    Pinata × StickState :=
  match s.err with
  | some _ => ({}, s)
  | none => stickInternalPath s p "Path" path

/-- `stickPathString`. -/
def stickPathString (s : StickState) (p : Pinata) (path : List String) :
    String × StickState :=
  match s.err with
  | some _ => ("", s)
  | none =>
    let (pinata, s1) := stickInternalPath s p "PathString" path
    match s1.err with
    | some _ => ("", s1)
    | none =>
      stickInternalString s1 { pinata with context := p.context } "PathString"
        (toInterfaceSlice path)

/-- `stickPathFloat64`. -/
def stickPathFloat64 (s : StickState) (p : Pinata) (path : List String) :
    Int × StickState :=
  match s.err with
  | some _ => (0, s)
  | none =>
    let (pinata, s1) := stickInternalPath s p "PathFloat64" path
    match s1.err with
    | some _ => (0, s1)
    | none =>
      stickInternalFloat64 s1 { pinata with context := p.context } "PathFloat64"
        (toInterfaceSlice path)

/-- `stickPathBool`. -/
def stickPathBool (s : StickState) (p : Pinata) (path : List String) :
    Bool × StickState :=
  match s.err with
  | some _ => (false, s)
  | none =>
    let (pinata, s1) := stickInternalPath s p "PathBool" path
    match s1.err with
    | some _ => (false, s1)
    | none =>
      stickInternalBool s1 { pinata with context := p.context } "PathBool"
        (toInterfaceSlice path)

/-- `stickPathNil`. -/
def stickPathNil (s : StickState) (p : Pinata) (path : List String) :
    StickState :=
  match s.err with
  | some _ => s
  | none =>
    let (pinata, s1) := stickInternalPath s p "PathNil" path
    match s1.err with
    | some _ => s1
    | none =>
      stickInternalNil s1 { pinata with context := p.context } "PathNil"
        (toInterfaceSlice path)

/-- Go-syntax formatting (`%#v`) of a recorded argument, as it appears in
`Error.Error()`; the recorded strings here contain no characters needing
escapes. -/
def goRepr : Arg → String
  | .ofInt i => toString i
  | .ofString str => "\"" ++ str ++ "\""

/-- One summary line of `Error.Error()`: `Method(arg, ...)` or `Method()`. -/
def summarizeCtx (c : ErrorContext) : String :=
  if c.methodArgs.length > 0 then
    c.methodName ++ "(" ++ String.intercalate ", " (c.methodArgs.map goRepr) ++ ")"
  else
    c.methodName ++ "()"

/-- The summary-collecting loop of `Error.Error()` (`for current != nil`),
appending one summary per context while following `next` links. -/
def errorSummariesFrom (acc : List String) : Option ErrorContext → List String
  | none => acc
  | some (.mk n args next) =>
      errorSummariesFrom (acc ++ [summarizeCtx (.mk n args next)]) next

/-- `Error.Error()`: the rendered diagnostic string. -/
def Error.render (e : Error) : String :=
  "pinata: " ++ e.reason.goString ++ " (" ++ e.advice ++ ") at " ++
    String.intercalate " at " (errorSummariesFrom [] e.context)

/-- Spec-side description of the diagnostic chain: the linked contexts in
order, starting from the innermost (failing) one and following `next`
links outward. -/
def contextChain : Option ErrorContext → List ErrorContext
  | none => []
  | some (.mk n args next) => .mk n args next :: contextChain next

/-- Spec-side description of path resolution: repeatedly look up each
segment, requiring every resolved value to be map-shaped. -/
def resolvesTo (m : List (String × GoValue)) : List String →
    Option (List (String × GoValue))
  | [] => some m
  | k :: rest =>
    match mapLookup m k with
    | some (.vmap m2) => resolvesTo m2 rest
    | _ => none

/-- Whether a raw value is map-shaped. -/
def GoValue.isVMap : GoValue → Bool
  | .vmap _ => true
  | _ => false

/-- Whether a raw value is a text string. -/
def GoValue.isVString : GoValue → Bool
  | .vstring _ => true
  | _ => false

/-- One Stick operation together with its arguments (the Navigator API
surface), for stating properties over all operations uniformly. -/
inductive StickOp : Type where
  | opString (p : Pinata) : StickOp
  | opFloat64 (p : Pinata) : StickOp
  | opBool (p : Pinata) : StickOp
  | opNil (p : Pinata) : StickOp
  | opIndex (p : Pinata) (i : Int) : StickOp
  | opPath (p : Pinata) (path : List String) : StickOp
  | opIndexString (p : Pinata) (i : Int) : StickOp
  | opIndexFloat64 (p : Pinata) (i : Int) : StickOp
  | opIndexBool (p : Pinata) (i : Int) : StickOp
  | opIndexNil (p : Pinata) (i : Int) : StickOp
  | opPathString (p : Pinata) (path : List String) : StickOp
  | opPathFloat64 (p : Pinata) (path : List String) : StickOp
  | opPathBool (p : Pinata) (path : List String) : StickOp
  | opPathNil (p : Pinata) (path : List String) : StickOp

/-- Run one operation for its state effect. -/
def runOp (s : StickState) : StickOp → StickState
  | .opString p => (stickString s p).2
  | .opFloat64 p => (stickFloat64 s p).2
  | .opBool p => (stickBool s p).2
  | .opNil p => stickNil s p
  | .opIndex p i => (stickIndex s p i).2
  | .opPath p path => (stickPath s p path).2
  | .opIndexString p i => (stickIndexString s p i).2
  | .opIndexFloat64 p i => (stickIndexFloat64 s p i).2
  | .opIndexBool p i => (stickIndexBool s p i).2
  | .opIndexNil p i => stickIndexNil s p i
  | .opPathString p path => (stickPathString s p path).2
  | .opPathFloat64 p path => (stickPathFloat64 s p path).2
  | .opPathBool p path => (stickPathBool s p path).2
  | .opPathNil p path => stickPathNil s p path

/-- Whether a raw value is a float64. -/
def GoValue.isVFloat64 : GoValue → Bool
  | .vfloat64 _ => true
  | _ => false

/-- Whether a raw value is a bool. -/
def GoValue.isVBool : GoValue → Bool
  | .vbool _ => true
  | _ => false

/-- A sample pending error, used to instantiate hypotheses at concrete
inputs. -/
def errSample : Error :=
  { reason := .invalidInput, context := none, advice := "sample" }

/-- A stick whose error slot is occupied by `errSample`. -/
def sampleFailed : StickState := ⟨some errSample⟩

/-- A sample string pinata. -/
def samplePin : Pinata := NewPinata (.vstring "x")

/-- The tree from the round-trip example: a map holding a map holding a
string. -/
def treeAB : GoValue := .vmap [("a", .vmap [("b", .vstring "c")])]

/-- A sample two-element slice. -/
def sampleSlice : List GoValue := [.vbool true, .vstring "x"]

/-- The map from the wrong-shaped-intermediate example. -/
def sampleScalarMap : List (String × GoValue) := [("a", .vstring "scalar")]

/-- Helper: every operation is the identity on a stick whose error slot is
already occupied. -/
theorem runOp_pending (s : StickState) (e : Error) (b : StickOp)
    (h : s.err = some e) : runOp s b = s := by
  obtain ⟨serr⟩ := s
  obtain rfl : serr = some e := h
  cases b <;> rfl

/-- C1: every Stick operation (`String`, `Float64`, `Bool`, `Nil`, `Index`,
`Path`, and all Index/Path composites), called while an error is pending,
returns the zero value of its result type and leaves the state (hence the
pending error) unchanged, for all argument values. -/
theorem claim1_pending_error_noop (s : StickState) (e : Error)
    (h : s.err = some e) (p : Pinata) (i : Int) (path : List String) :
    stickString s p = ("", s) ∧
    stickFloat64 s p = (0, s) ∧
    stickBool s p = (false, s) ∧
    stickNil s p = s ∧
    stickIndex s p i = ({}, s) ∧
    stickPath s p path = ({}, s) ∧
    stickIndexString s p i = ("", s) ∧
    stickIndexFloat64 s p i = (0, s) ∧
    stickIndexBool s p i = (false, s) ∧
    stickIndexNil s p i = s ∧
    stickPathString s p path = ("", s) ∧
    stickPathFloat64 s p path = (0, s) ∧
    stickPathBool s p path = (false, s) ∧
    stickPathNil s p path = s := by
  obtain ⟨serr⟩ := s
  obtain rfl : serr = some e := h
  exact ⟨rfl, rfl, rfl, rfl, rfl, rfl, rfl, rfl, rfl, rfl, rfl, rfl, rfl, rfl⟩

/-- Witness for C1 at a concrete failed stick, pinata, index and path. -/
theorem claim1_pending_error_noop_witness :
    stickString sampleFailed samplePin = ("", sampleFailed) :=
  (claim1_pending_error_noop sampleFailed errSample rfl samplePin 0 ["a"]).1

/-- C2: starting from a clean stick, if operation A sets the pending error
`e`, then after any further operation B the pending error is still `e`
(the reason, method name and arguments of A), never those of B. -/
theorem claim2_first_error_wins (s : StickState) (_hclean : s.err = none)
    (a b : StickOp) (e : Error) (ha : (runOp s a).err = some e) :
    (runOp (runOp s a) b).err = some e := by
  rw [runOp_pending (runOp s a) e b ha]
  exact ha

/-- Witness for C2: `String` on a map pinata fails, and a subsequent
`Bool` on a slice pinata (which would fail on its own) leaves the first
error in place. -/
theorem claim2_first_error_wins_witness :
    (runOp (runOp ⟨none⟩ (.opString (NewPinata (.vmap []))))
        (.opBool (NewPinata (.vslice [])))).err =
      some ⟨.incompatibleType, some (.mk "String" [] none), "this is a map"⟩ :=
  claim2_first_error_wins ⟨none⟩ rfl (.opString (NewPinata (.vmap [])))
    (.opBool (NewPinata (.vslice [])))
    ⟨.incompatibleType, some (.mk "String" [] none), "this is a map"⟩ rfl

/-- C8: `ClearError` on a failed stick returns the pending error and
resets the state to clean; on a clean stick it returns nil and has no
effect; and no other operation ever clears a pending error (so explicit
clear is the only transition from Failed back to Clean), after which a
valid operation (reading a string pinata) succeeds normally. -/
theorem claim8_clear_error (s : StickState) :
    (∀ e, s.err = some e → stickClearError s = (some e, ⟨none⟩)) ∧
    (s.err = none → stickClearError s = (none, s)) ∧
    (∀ e (op : StickOp), s.err = some e → (runOp s op).err = some e) ∧
    (∀ str, stickString (stickClearError s).2 (NewPinata (.vstring str)) =
      (str, (stickClearError s).2)) := by
  obtain ⟨serr⟩ := s
  refine ⟨?_, ?_, ?_, ?_⟩
  · intro e he
    obtain rfl : serr = some e := he
    rfl
  · intro he
    obtain rfl : serr = (none : Option Error) := he
    rfl
  · intro e op he
    rw [runOp_pending ⟨serr⟩ e op he]
    exact he
  · intro str
    rfl

/-- Witness for C8 at a concrete failed stick. -/
theorem claim8_clear_error_witness :
    stickClearError sampleFailed = (some errSample, ⟨none⟩) :=
  (claim8_clear_error sampleFailed).1 errSample rfl

/-- C9: the zero-value Pinata reports a nil raw value and failing map and
slice probes, and on a clean stick every operation on it is well-defined:
the scalar getters and `Index`/`Path` fail with incompatible-type, while
`Nil` succeeds without touching the state. -/
theorem claim9_zero_pinata (s : StickState) (hs : s.err = none) (i : Int)
    (path : List String) :
    Pinata.Value {} = GoValue.vnil ∧
    Pinata.Map {} = ([], false) ∧
    Pinata.Slice {} = ([], false) ∧
    (stickString s {}).2.err = some ⟨.incompatibleType,
      some (.mk "String" [] none), "this is not a string"⟩ ∧
    (stickFloat64 s {}).2.err = some ⟨.incompatibleType,
      some (.mk "Float64" [] none), "this is not a float64"⟩ ∧
    (stickBool s {}).2.err = some ⟨.incompatibleType,
      some (.mk "Bool" [] none), "this is not a bool"⟩ ∧
    (stickIndex s {} i).2.err = some ⟨.incompatibleType,
      some (.mk "Index" [.ofInt i] none), "call this method on a slice pinata"⟩ ∧
    (stickPath s {} path).2.err = some ⟨.incompatibleType,
      some (.mk "Path" (toInterfaceSlice path) none),
      "call this method on a map pinata"⟩ ∧
    stickNil s {} = s := by
  obtain ⟨serr⟩ := s
  obtain rfl : serr = (none : Option Error) := hs
  exact ⟨rfl, rfl, rfl, rfl, rfl, rfl, rfl, rfl, rfl⟩

/-- Witness for C9 at a clean stick, index 0 and path `["a"]`. -/
theorem claim9_zero_pinata_witness :
    (stickString ⟨none⟩ {}).2.err = some ⟨.incompatibleType,
      some (.mk "String" [] none), "this is not a string"⟩ :=
  (claim9_zero_pinata ⟨none⟩ rfl 0 ["a"]).2.2.2.1

/-- C5 (divergence evaluation): on a clean stick, `Nil` of a map pinata
and of a slice pinata both surface advice "this is not nil" (the
map/slice-specific advice written earlier in `internalNil` is
unconditionally overwritten because the Go code lacks early returns),
while `Nil` of a nil pinata is a no-op. -/
theorem claim5_nil_advice_eval :
    stickNil ⟨none⟩ (NewPinata (.vmap [("k", .vstring "v")])) =
      ⟨some ⟨.incompatibleType, some (.mk "Nil" [] none), "this is not nil"⟩⟩ ∧
    stickNil ⟨none⟩ (NewPinata (.vslice [.vbool true])) =
      ⟨some ⟨.incompatibleType, some (.mk "Nil" [] none), "this is not nil"⟩⟩ ∧
    stickNil ⟨none⟩ (NewPinata .vnil) = ⟨none⟩ :=
  ⟨rfl, rfl, rfl⟩

/-- C7: on the tree `{"a": {"b": "c"}}`, `PathString` at path `a, b` on a
clean stick returns `"c"` and the error slot stays nil. -/
theorem claim7_round_trip :
    stickPathString ⟨none⟩ (NewPinata treeAB) ["a", "b"] = ("c", ⟨none⟩) := rfl

/-- Helper: the summary-collecting loop of `Error.Error()` produces
exactly the summaries of the chain collected innermost-to-outermost. -/
theorem errorSummariesFrom_eq :
    ∀ (c : Option ErrorContext) (acc : List String),
      errorSummariesFrom acc c = acc ++ (contextChain c).map summarizeCtx
  | none, acc => by simp [errorSummariesFrom, contextChain]
  | some (.mk n args next), acc => by
      rw [errorSummariesFrom, contextChain]
      rw [errorSummariesFrom_eq next]
      simp

/-- C10: rendering an error yields one string carrying the reason and the
advice, followed by the context summaries (the failing call first, then
each enclosing call reached through `next`, i.e. innermost to outermost)
joined by " at ". -/
theorem claim10_render (e : Error) :
    Error.render e = "pinata: " ++ e.reason.goString ++ " (" ++ e.advice ++
      ") at " ++
      String.intercalate " at " ((contextChain e.context).map summarizeCtx) := by
  rw [Error.render, errorSummariesFrom_eq]
  simp

/-- Helper: a freshly constructed pinata wraps exactly the given value. -/
theorem newPinataWithContext_value (v : GoValue) (c : Option ErrorContext) :
    (newPinataWithContext v c).Value = v := by
  cases v <;> rfl

/-- Helper: a freshly constructed pinata carries the given context. -/
theorem newPinataWithContext_context (v : GoValue) (c : Option ErrorContext) :
    (newPinataWithContext v c).context = c := by
  cases v <;> rfl

/-- C4: on a clean stick and a slice pinata of length n, `Index` with an
out-of-range index fails with invalid-input and advice naming the range
0 to n-1, returning the empty pinata; with an in-range index it succeeds
with no error, returning a freshly constructed pinata wrapping the
element at that index, whose origin records the method name and index
argument linked to the context of the input pinata. -/
theorem claim4_index (s : StickState) (hs : s.err = none) (p : Pinata)
    (l : List GoValue) (hl : p.Slice = (l, true)) (i : Int) :
    ((i < 0 ∨ (l.length : Int) ≤ i) →
      stickIndex s p i = ({}, ⟨some ⟨.invalidInput,
        some (.mk "Index" [.ofInt i] p.context),
        "specify an index from 0 to " ++ toString ((l.length : Int) - 1)⟩⟩)) ∧
    (0 ≤ i → i < (l.length : Int) →
      stickIndex s p i =
        (newPinataWithContext (l.getD i.toNat .vnil)
          (some (.mk "Index" [.ofInt i] p.context)), s) ∧
      (stickIndex s p i).1.Value = l.getD i.toNat .vnil ∧
      (stickIndex s p i).1.context = some (.mk "Index" [.ofInt i] p.context) ∧
      (stickIndex s p i).2.err = none) := by
  obtain ⟨serr⟩ := s
  obtain rfl : serr = (none : Option Error) := hs
  constructor
  · intro hout
    simp only [stickIndex, stickInternalIndex, hl]
    rw [if_pos hout]
  · intro h0 hin
    have hcond : ¬(i < 0 ∨ (l.length : Int) ≤ i) := by omega
    have heq : stickIndex ⟨none⟩ p i =
        (newPinataWithContext (l.getD i.toNat .vnil)
          (some (.mk "Index" [.ofInt i] p.context)), ⟨none⟩) := by
      simp only [stickIndex, stickInternalIndex, hl]
      rw [if_neg hcond]
    refine ⟨heq, ?_, ?_, ?_⟩
    · rw [heq]; exact newPinataWithContext_value _ _
    · rw [heq]; exact newPinataWithContext_context _ _
    · rw [heq]

/-- Witness for C4: a two-element slice, out-of-range index 2. -/
theorem claim4_index_witness :
    stickIndex ⟨none⟩ (NewPinata (.vslice sampleSlice)) 2 =
      ({}, ⟨some ⟨.invalidInput,
        some (.mk "Index" [.ofInt 2] none),
        "specify an index from 0 to " ++ toString ((1 : Int))⟩⟩) :=
  (claim4_index ⟨none⟩ rfl (NewPinata (.vslice sampleSlice)) sampleSlice rfl 2).1
    (Or.inr (by decide))

/-- Helper: when spec-side resolution of the intermediate segments
succeeds, the walk loop returns the resolved final map. -/
theorem stickPathWalk_ok (mn : String) (path : List String)
    (ctx : Option ErrorContext) :
    ∀ (segs : List String) (contents out : List (String × GoValue)) (i : Nat),
      resolvesTo contents segs = some out →
      stickPathWalk mn path ctx contents segs i = Sum.inl out
  | [], contents, out, i, h => by
      simp only [resolvesTo, Option.some.injEq] at h
      subst h
      rfl
  | k :: rest, contents, out, i, h => by
      simp only [resolvesTo] at h
      simp only [stickPathWalk]
      cases hLk : mapLookup contents k with
      | none => simp [hLk] at h
      | some v =>
        cases v with
        | vmap m2 =>
            simp only [hLk] at h
            simp only [hLk]
            exact stickPathWalk_ok mn path ctx rest m2 out (i + 1) h
        | vnil => simp [hLk] at h
        | vstring a => simp [hLk] at h
        | vfloat64 a => simp [hLk] at h
        | vbool a => simp [hLk] at h
        | vslice a => simp [hLk] at h

/-- Helper: when the intermediate segments resolve up to position `j` but
the key at `j` is missing, the walk loop fails with not-found and advice
naming the prefix through position `j` of the full path. -/
theorem stickPathWalk_missing (mn : String) (path : List String)
    (ctx : Option ErrorContext) :
    ∀ (j : Nat) (segs : List String)
      (contents mj : List (String × GoValue)) (i : Nat),
      j < segs.length →
      resolvesTo contents (segs.take j) = some mj →
      mapLookup mj (segs.getD j "") = none →
      stickPathWalk mn path ctx contents segs i =
        Sum.inr { reason := .notFound,
                  context := some (.mk mn (toInterfaceSlice path) ctx),
                  advice := quoteJoin (path.take (i + j + 1)) ++
                    " does not exist" }
  | 0, [], contents, mj, i, hlen, hres, hmiss => by simp at hlen
  | 0, k :: rest, contents, mj, i, hlen, hres, hmiss => by
      simp only [List.take_zero, resolvesTo, Option.some.injEq] at hres
      subst hres
      simp only [List.getD_cons_zero] at hmiss
      simp only [stickPathWalk, hmiss]
  | j + 1, [], contents, mj, i, hlen, hres, hmiss => by simp at hlen
  | j + 1, k :: rest, contents, mj, i, hlen, hres, hmiss => by
      simp only [List.take_succ_cons, resolvesTo] at hres
      simp only [List.getD_cons_succ] at hmiss
      simp only [stickPathWalk]
      cases hLk : mapLookup contents k with
      | none => simp [hLk] at hres
      | some v =>
        cases v with
        | vmap m2 =>
            simp only [hLk] at hres
            simp only [hLk]
            have hlen2 : j < rest.length := by
              simpa using Nat.lt_of_succ_lt_succ hlen
            have harith : i + 1 + j + 1 = i + (j + 1) + 1 := by omega
            rw [stickPathWalk_missing mn path ctx j rest m2 mj (i + 1) hlen2
              hres hmiss, harith]
        | vnil => simp [hLk] at hres
        | vstring a => simp [hLk] at hres
        | vfloat64 a => simp [hLk] at hres
        | vbool a => simp [hLk] at hres
        | vslice a => simp [hLk] at hres

/-- Helper: when the intermediate segments resolve up to position `j` but
the value at `j` is present and not map-shaped, the walk loop fails with
incompatible-type and advice naming the prefix through position `j`. -/
theorem stickPathWalk_nonmap (mn : String) (path : List String)
    (ctx : Option ErrorContext) :
    ∀ (j : Nat) (segs : List String)
      (contents mj : List (String × GoValue)) (v : GoValue) (i : Nat),
      j < segs.length →
      resolvesTo contents (segs.take j) = some mj →
      mapLookup mj (segs.getD j "") = some v →
      v.isVMap = false →
      stickPathWalk mn path ctx contents segs i =
        Sum.inr { reason := .incompatibleType,
                  context := some (.mk mn (toInterfaceSlice path) ctx),
                  advice := quoteJoin (path.take (i + j + 1)) ++
                    " does not hold a pinata" }
  | 0, [], contents, mj, v, i, hlen, hres, hcur, hnm => by simp at hlen
  | 0, k :: rest, contents, mj, v, i, hlen, hres, hcur, hnm => by
      simp only [List.take_zero, resolvesTo, Option.some.injEq] at hres
      subst hres
      simp only [List.getD_cons_zero] at hcur
      simp only [stickPathWalk, hcur]
      cases v with
      | vmap m2 => simp [GoValue.isVMap] at hnm
      | vnil => rfl
      | vstring a => rfl
      | vfloat64 a => rfl
      | vbool a => rfl
      | vslice a => rfl
  | j + 1, [], contents, mj, v, i, hlen, hres, hcur, hnm => by simp at hlen
  | j + 1, k :: rest, contents, mj, v, i, hlen, hres, hcur, hnm => by
      simp only [List.take_succ_cons, resolvesTo] at hres
      simp only [List.getD_cons_succ] at hcur
      simp only [stickPathWalk]
      cases hLk : mapLookup contents k with
      | none => simp [hLk] at hres
      | some w =>
        cases w with
        | vmap m2 =>
            simp only [hLk] at hres
            simp only [hLk]
            have hlen2 : j < rest.length := by
              simpa using Nat.lt_of_succ_lt_succ hlen
            have harith : i + 1 + j + 1 = i + (j + 1) + 1 := by omega
            rw [stickPathWalk_nonmap mn path ctx j rest m2 mj v (i + 1) hlen2
              hres hcur hnm, harith]
        | vnil => simp [hLk] at hres
        | vstring a => simp [hLk] at hres
        | vfloat64 a => simp [hLk] at hres
        | vbool a => simp [hLk] at hres
        | vslice a => simp [hLk] at hres

/-- Helper: taking `j` of the intermediate segments is taking `j` of the
full path, when `j` indexes an intermediate segment. -/
theorem segsTake (k : String) (kr : List String) (j : Nat) (hj : j ≤ kr.length) :
    ((k :: kr).take ((k :: kr).length - 1)).take j = (k :: kr).take j := by
  simp only [List.length_cons, Nat.add_sub_cancel, List.take_take]
  congr 1
  omega

/-- Helper: position `j` of the intermediate segments is position `j` of
the full path, when `j` indexes an intermediate segment. -/
theorem segsGetD (k : String) (kr : List String) (j : Nat) (hj : j < kr.length) :
    ((k :: kr).take ((k :: kr).length - 1)).getD j "" = (k :: kr).getD j "" := by
  simp only [List.length_cons, Nat.add_sub_cancel, List.getD_eq_getElem?_getD,
    List.getElem?_take, if_pos hj]

/-- C3: on a clean stick and a map pinata, `Path` with no segments fails
with invalid-input and advice "specify a path"; a missing intermediate
key fails with not-found naming the resolved prefix; an intermediate key
holding a non-map fails with incompatible-type naming the prefix; a
missing final key fails with not-found naming the full path; and when
every lookup succeeds `Path` returns a pinata wrapping the final value,
with no error. -/
theorem claim3_path (s : StickState) (hs : s.err = none) (p : Pinata)
    (m : List (String × GoValue)) (hm : p.Map = (m, true))
    (path : List String) :
    (path = [] → stickPath s p path =
      ({}, ⟨some ⟨.invalidInput, some (.mk "Path" [] p.context),
        "specify a path"⟩⟩)) ∧
    (∀ j mj, j + 1 < path.length → resolvesTo m (path.take j) = some mj →
      mapLookup mj (path.getD j "") = none →
      (stickPath s p path).2.err = some ⟨.notFound,
        some (.mk "Path" (toInterfaceSlice path) p.context),
        quoteJoin (path.take (j + 1)) ++ " does not exist"⟩) ∧
    (∀ j mj v, j + 1 < path.length → resolvesTo m (path.take j) = some mj →
      mapLookup mj (path.getD j "") = some v → v.isVMap = false →
      (stickPath s p path).2.err = some ⟨.incompatibleType,
        some (.mk "Path" (toInterfaceSlice path) p.context),
        quoteJoin (path.take (j + 1)) ++ " does not hold a pinata"⟩) ∧
    (∀ mlast, path ≠ [] →
      resolvesTo m (path.take (path.length - 1)) = some mlast →
      mapLookup mlast (path.getD (path.length - 1) "") = none →
      (stickPath s p path).2.err = some ⟨.notFound,
        some (.mk "Path" (toInterfaceSlice path) p.context),
        quoteJoin path ++ " does not exist"⟩) ∧
    (∀ mlast v, path ≠ [] →
      resolvesTo m (path.take (path.length - 1)) = some mlast →
      mapLookup mlast (path.getD (path.length - 1) "") = some v →
      stickPath s p path =
        (newPinataWithContext v
          (some (.mk "Path" (toInterfaceSlice path) p.context)), s)) := by
  obtain ⟨serr⟩ := s
  obtain rfl : serr = (none : Option Error) := hs
  refine ⟨?_, ?_, ?_, ?_, ?_⟩
  · rintro rfl
    simp [stickPath, stickInternalPath, hm, toInterfaceSlice]
  · intro j mj hj hres hmiss
    cases path with
    | nil => simp at hj
    | cons k kr =>
      have hjk : j < kr.length := by
        simp only [List.length_cons] at hj
        omega
      simp only [stickPath, stickInternalPath, hm]
      rw [stickPathWalk_missing "Path" (k :: kr) p.context j
        ((k :: kr).take ((k :: kr).length - 1)) m mj 0
        (by simp only [List.length_take, List.length_cons,
              Nat.add_sub_cancel]; omega)
        (by rw [segsTake k kr j (le_of_lt hjk)]; exact hres)
        (by rw [segsGetD k kr j hjk]; exact hmiss)]
      simp
  · intro j mj v hj hres hcur hnm
    cases path with
    | nil => simp at hj
    | cons k kr =>
      have hjk : j < kr.length := by
        simp only [List.length_cons] at hj
        omega
      simp only [stickPath, stickInternalPath, hm]
      rw [stickPathWalk_nonmap "Path" (k :: kr) p.context j
        ((k :: kr).take ((k :: kr).length - 1)) m mj v 0
        (by simp only [List.length_take, List.length_cons,
              Nat.add_sub_cancel]; omega)
        (by rw [segsTake k kr j (le_of_lt hjk)]; exact hres)
        (by rw [segsGetD k kr j hjk]; exact hcur)
        hnm]
      simp
  · intro mlast hne hres hmiss
    cases path with
    | nil => exact absurd rfl hne
    | cons k kr =>
      simp only [stickPath, stickInternalPath, hm]
      rw [stickPathWalk_ok "Path" (k :: kr) p.context
        ((k :: kr).take ((k :: kr).length - 1)) m mlast 0 hres]
      simp only [hmiss]
  · intro mlast v hne hres hfin
    cases path with
    | nil => exact absurd rfl hne
    | cons k kr =>
      simp only [stickPath, stickInternalPath, hm]
      rw [stickPathWalk_ok "Path" (k :: kr) p.context
        ((k :: kr).take ((k :: kr).length - 1)) m mlast 0 hres]
      simp only [hfin]

/-- Witness for C3: the wrong-shaped-intermediate example, where `"a"`
holds a scalar and the path asks for `a, b`. -/
theorem claim3_path_witness :
    (stickPath ⟨none⟩ (NewPinata (.vmap sampleScalarMap)) ["a", "b"]).2.err =
      some ⟨.incompatibleType,
        some (.mk "Path" (toInterfaceSlice ["a", "b"]) none),
        quoteJoin (["a", "b"].take 1) ++ " does not hold a pinata"⟩ :=
  ((claim3_path ⟨none⟩ rfl (NewPinata (.vmap sampleScalarMap)) sampleScalarMap
    rfl ["a", "b"]).2.2.1) 0 sampleScalarMap (.vstring "scalar")
    (by decide) rfl rfl rfl

/-- Helper: `internalIndex` with a valid index on a slice pinata returns
the freshly wrapped element and leaves the state unchanged. -/
theorem stickInternalIndex_ok (s : StickState) (p : Pinata) (l : List GoValue)
    (hl : p.Slice = (l, true)) (mn : String) (i : Int) (h0 : 0 ≤ i)
    (hi : i < (l.length : Int)) :
    stickInternalIndex s p mn i =
      (newPinataWithContext (l.getD i.toNat .vnil)
        (some (.mk mn [.ofInt i] p.context)), s) := by
  simp only [stickInternalIndex, hl]
  rw [if_neg (by omega)]

/-- Helper: `internalPath` with a fully resolving path on a map pinata
returns the freshly wrapped final value and leaves the state unchanged. -/
theorem stickInternalPath_ok (s : StickState) (q : Pinata)
    (m : List (String × GoValue)) (hq : q.Map = (m, true)) (mn : String)
    (path : List String) (hne : path ≠ [])
    (mlast : List (String × GoValue)) (v : GoValue)
    (hres : resolvesTo m (path.take (path.length - 1)) = some mlast)
    (hfin : mapLookup mlast (path.getD (path.length - 1) "") = some v) :
    stickInternalPath s q mn path =
      (newPinataWithContext v
        (some (.mk mn (toInterfaceSlice path) q.context)), s) := by
  cases path with
  | nil => exact absurd rfl hne
  | cons k kr =>
    simp only [stickInternalPath, hq]
    rw [stickPathWalk_ok mn (k :: kr) q.context
      ((k :: kr).take ((k :: kr).length - 1)) m mlast 0 hres]
    simp only [hfin]

/-- Helper: the string getter on a wrapped value that is not a string
fails with incompatible-type and the supplied method name, arguments and
context. -/
theorem stickInternalString_shape (s : StickState) (w : GoValue)
    (c0 c1 : Option ErrorContext) (mn : String) (input : List Arg)
    (hw : w.isVString = false) :
    ∃ adv, (stickInternalString s
        { newPinataWithContext w c0 with context := c1 } mn input).2 =
      ⟨some ⟨.incompatibleType, some (.mk mn input c1), adv⟩⟩ := by
  cases w
  case vstring => simp [GoValue.isVString] at hw
  all_goals exact ⟨_, rfl⟩

/-- Helper: same as `stickInternalString_shape` for the float64 getter. -/
theorem stickInternalFloat64_shape (s : StickState) (w : GoValue)
    (c0 c1 : Option ErrorContext) (mn : String) (input : List Arg)
    (hw : w.isVFloat64 = false) :
    ∃ adv, (stickInternalFloat64 s
        { newPinataWithContext w c0 with context := c1 } mn input).2 =
      ⟨some ⟨.incompatibleType, some (.mk mn input c1), adv⟩⟩ := by
  cases w
  case vfloat64 => simp [GoValue.isVFloat64] at hw
  all_goals exact ⟨_, rfl⟩

/-- Helper: same as `stickInternalString_shape` for the bool getter. -/
theorem stickInternalBool_shape (s : StickState) (w : GoValue)
    (c0 c1 : Option ErrorContext) (mn : String) (input : List Arg)
    (hw : w.isVBool = false) :
    ∃ adv, (stickInternalBool s
        { newPinataWithContext w c0 with context := c1 } mn input).2 =
      ⟨some ⟨.incompatibleType, some (.mk mn input c1), adv⟩⟩ := by
  cases w
  case vbool => simp [GoValue.isVBool] at hw
  all_goals exact ⟨_, rfl⟩

/-- Helper: same as `stickInternalString_shape` for the nil assertion. -/
theorem stickInternalNil_shape (s : StickState) (w : GoValue)
    (c0 c1 : Option ErrorContext) (mn : String) (input : List Arg)
    (hw : w ≠ .vnil) :
    ∃ adv, stickInternalNil s
        { newPinataWithContext w c0 with context := c1 } mn input =
      ⟨some ⟨.incompatibleType, some (.mk mn input c1), adv⟩⟩ := by
  cases w
  case vnil => exact absurd rfl hw
  all_goals exact ⟨_, rfl⟩

/-- C6: for every composite operation on a clean stick whose index or path
step succeeds but whose inner scalar extraction fails, the pending error
records the method name of the composite operation itself and the
index or path arguments of the composite (linked to the context of the input pinata), never the
name or arguments of the inner getter. -/
theorem claim6_composite_rewrite (s : StickState) (hs : s.err = none)
    (p : Pinata) (l : List GoValue) (hl : p.Slice = (l, true))
    (i : Int) (h0 : 0 ≤ i) (hi : i < (l.length : Int))
    (q : Pinata) (m : List (String × GoValue)) (hq : q.Map = (m, true))
    (path : List String) (hne : path ≠ [])
    (mlast : List (String × GoValue)) (v : GoValue)
    (hres : resolvesTo m (path.take (path.length - 1)) = some mlast)
    (hfin : mapLookup mlast (path.getD (path.length - 1) "") = some v) :
    ((l.getD i.toNat .vnil).isVString = false →
      ∃ adv, (stickIndexString s p i).2.err = some ⟨.incompatibleType,
        some (.mk "IndexString" [.ofInt i] p.context), adv⟩) ∧
    ((l.getD i.toNat .vnil).isVFloat64 = false →
      ∃ adv, (stickIndexFloat64 s p i).2.err = some ⟨.incompatibleType,
        some (.mk "IndexFloat64" [.ofInt i] p.context), adv⟩) ∧
    ((l.getD i.toNat .vnil).isVBool = false →
      ∃ adv, (stickIndexBool s p i).2.err = some ⟨.incompatibleType,
        some (.mk "IndexBool" [.ofInt i] p.context), adv⟩) ∧
    (l.getD i.toNat .vnil ≠ .vnil →
      ∃ adv, (stickIndexNil s p i).err = some ⟨.incompatibleType,
        some (.mk "IndexNil" [.ofInt i] p.context), adv⟩) ∧
    (v.isVString = false →
      ∃ adv, (stickPathString s q path).2.err = some ⟨.incompatibleType,
        some (.mk "PathString" (toInterfaceSlice path) q.context), adv⟩) ∧
    (v.isVFloat64 = false →
      ∃ adv, (stickPathFloat64 s q path).2.err = some ⟨.incompatibleType,
        some (.mk "PathFloat64" (toInterfaceSlice path) q.context), adv⟩) ∧
    (v.isVBool = false →
      ∃ adv, (stickPathBool s q path).2.err = some ⟨.incompatibleType,
        some (.mk "PathBool" (toInterfaceSlice path) q.context), adv⟩) ∧
    (v ≠ .vnil →
      ∃ adv, (stickPathNil s q path).err = some ⟨.incompatibleType,
        some (.mk "PathNil" (toInterfaceSlice path) q.context), adv⟩) := by
  obtain ⟨serr⟩ := s
  obtain rfl : serr = (none : Option Error) := hs
  refine ⟨?_, ?_, ?_, ?_, ?_, ?_, ?_, ?_⟩
  · intro hw
    simp only [stickIndexString,
      stickInternalIndex_ok ⟨none⟩ p l hl "IndexString" i h0 hi]
    obtain ⟨adv, ha⟩ := stickInternalString_shape ⟨none⟩ (l.getD i.toNat .vnil)
      (some (.mk "IndexString" [.ofInt i] p.context)) p.context "IndexString"
      [.ofInt i] hw
    exact ⟨adv, by rw [ha]⟩
  · intro hw
    simp only [stickIndexFloat64,
      stickInternalIndex_ok ⟨none⟩ p l hl "IndexFloat64" i h0 hi]
    obtain ⟨adv, ha⟩ := stickInternalFloat64_shape ⟨none⟩ (l.getD i.toNat .vnil)
      (some (.mk "IndexFloat64" [.ofInt i] p.context)) p.context "IndexFloat64"
      [.ofInt i] hw
    exact ⟨adv, by rw [ha]⟩
  · intro hw
    simp only [stickIndexBool,
      stickInternalIndex_ok ⟨none⟩ p l hl "IndexBool" i h0 hi]
    obtain ⟨adv, ha⟩ := stickInternalBool_shape ⟨none⟩ (l.getD i.toNat .vnil)
      (some (.mk "IndexBool" [.ofInt i] p.context)) p.context "IndexBool"
      [.ofInt i] hw
    exact ⟨adv, by rw [ha]⟩
  · intro hw
    simp only [stickIndexNil,
      stickInternalIndex_ok ⟨none⟩ p l hl "IndexNil" i h0 hi]
    obtain ⟨adv, ha⟩ := stickInternalNil_shape ⟨none⟩ (l.getD i.toNat .vnil)
      (some (.mk "IndexNil" [.ofInt i] p.context)) p.context "IndexNil"
      [.ofInt i] hw
    exact ⟨adv, by rw [ha]⟩
  · intro hw
    simp only [stickPathString,
      stickInternalPath_ok ⟨none⟩ q m hq "PathString" path hne mlast v hres hfin]
    obtain ⟨adv, ha⟩ := stickInternalString_shape ⟨none⟩ v
      (some (.mk "PathString" (toInterfaceSlice path) q.context)) q.context
      "PathString" (toInterfaceSlice path) hw
    exact ⟨adv, by rw [ha]⟩
  · intro hw
    simp only [stickPathFloat64,
      stickInternalPath_ok ⟨none⟩ q m hq "PathFloat64" path hne mlast v hres hfin]
    obtain ⟨adv, ha⟩ := stickInternalFloat64_shape ⟨none⟩ v
      (some (.mk "PathFloat64" (toInterfaceSlice path) q.context)) q.context
      "PathFloat64" (toInterfaceSlice path) hw
    exact ⟨adv, by rw [ha]⟩
  · intro hw
    simp only [stickPathBool,
      stickInternalPath_ok ⟨none⟩ q m hq "PathBool" path hne mlast v hres hfin]
    obtain ⟨adv, ha⟩ := stickInternalBool_shape ⟨none⟩ v
      (some (.mk "PathBool" (toInterfaceSlice path) q.context)) q.context
      "PathBool" (toInterfaceSlice path) hw
    exact ⟨adv, by rw [ha]⟩
  · intro hw
    simp only [stickPathNil,
      stickInternalPath_ok ⟨none⟩ q m hq "PathNil" path hne mlast v hres hfin]
    obtain ⟨adv, ha⟩ := stickInternalNil_shape ⟨none⟩ v
      (some (.mk "PathNil" (toInterfaceSlice path) q.context)) q.context
      "PathNil" (toInterfaceSlice path) hw
    exact ⟨adv, by rw [ha]⟩

/-- Witness for C6: `IndexString` on a one-element slice holding a bool,
at index 0. -/
theorem claim6_composite_rewrite_witness :
    ∃ adv, (stickIndexString ⟨none⟩ (NewPinata (.vslice [.vbool true])) 0).2.err =
      some ⟨.incompatibleType, some (.mk "IndexString" [.ofInt 0] none), adv⟩ :=
  (claim6_composite_rewrite ⟨none⟩ rfl (NewPinata (.vslice [.vbool true]))
    [.vbool true] rfl 0 (by decide) (by decide)
    (NewPinata (.vmap [("a", .vfloat64 3)])) [("a", .vfloat64 3)] rfl
    ["a"] (by decide) [("a", .vfloat64 3)] (.vfloat64 3) rfl rfl).1 rfl
